import Mathlib

/-!
# bin2sphere: framing a binary payload as a Sphere cassette block

A shallow embedding of `main` of `main.c`.  The program reads a block name from
its second argument and the whole input file, builds the block in a work buffer
by pointer-advance writes, and writes the first `data_size` bytes of that buffer
to the output file.

Conventions of the embedding:

* a byte is a `Nat` below 256; a program argument is the list of the bytes at
  the address `argv[i]`, its terminating NUL left implicit at the end of the list;
* a cell of the work buffer is an `Option Nat`: `none` is a byte of the
  allocation that no statement has assigned yet;
* the file system and the allocator are a `World`: which calls succeed, and
  what the input file holds;
* a run of `main` is summarised by a `Run`: the value returned, the messages
  printed, the allocation, the work buffer and the output file;
* `mainLogged` is `main` with a log of the offsets of the work buffer that the
  run stores to; its first component is `main` (`mainLogged_fst`).
-/

namespace Bin2Sphere

/-- Sync byte, `#define HEADER_SYNC 0x16`. -/
def HEADER_SYNC : Nat := 0x16

/-- Escape marker, `#define HEADER_ESC 0x1B`. -/
def HEADER_ESC : Nat := 0x1B

/-- End of transmission marker, `#define TRAILER_EOT 0x17`. -/
def TRAILER_EOT : Nat := 0x17

/-- The C library `strlen`: the number of bytes before the first NUL. -/
def strlen (s : List Nat) : Nat :=
  (s.takeWhile (fun b => b != 0)).length

/-- The value of the expression `s[i]` for `s : const char *`: the byte at index
`i` (the terminating NUL past the end of the list) read as a `char`, which is a
signed type when `sgn` holds and an unsigned one otherwise. -/
def charAt (sgn : Bool) (s : List Nat) (i : Nat) : Int :=
  let b := s.getD i 0
  if sgn && decide (128 ≤ b) then (b : Int) - 256 else (b : Int)

/-- Conversion of an integer value to `unsigned char` on assignment. -/
def toUChar (c : Int) : Nat :=
  (c % 256).toNat

/-- The lines the program can print, one constructor for each `printf`. -/
inductive Message where
  /-- The text `usage: %s block_name input_file output_file`. -/
  | usage
  /-- The text `Block name must be two ASCII characters`. -/
  | blockNameLength
  /-- The text `Warning: block name uses character(s) that are outside normal
  Sphere caps alphanumeric range.` -/
  | blockNameRange
  /-- The text `Unable to open %s` for the input file. -/
  | unableToOpenInput
  /-- The text `Error reading %s`. -/
  | errorReading
  /-- The text `Input file is empty!`. -/
  | inputEmpty
  /-- The text `Input file too big! (Must be less than 64kbytes)`. -/
  | inputTooBig
  /-- The text `File too large to allocate work buffer`. -/
  | allocationFailed
  /-- The text `Unable to open %s` for the output file. -/
  | unableToOpenOutput
  /-- The text `Error writing %s`. -/
  | errorWriting
  deriving DecidableEq, Repr

/-- The environment of one run: the platform, the input file and the outcome of
each library call that can fail. -/
structure World where
  /-- Whether plain `char` is a signed type on the platform. -/
  charSigned : Bool
  /-- The bytes of the input file, `none` when `fopen` on it fails. -/
  input : Option (List Nat)
  /-- Whether `fseek(file, 0, SEEK_END)` succeeds. -/
  seekEndOk : Bool
  /-- Whether `malloc` returns a buffer. -/
  mallocOk : Bool
  /-- Whether `fseek(file, 0, SEEK_SET)` succeeds. -/
  seekSetOk : Bool
  /-- The most bytes `fread` delivers, `none` for no limit. -/
  readLimit : Option Nat
  /-- Whether `fopen` on the output file succeeds. -/
  outputOpenOk : Bool
  /-- The most bytes `fwrite` accepts, `none` for no limit. -/
  writeLimit : Option Nat

/-- What one run of `main` leaves behind. -/
structure Run where
  /-- The value `main` returns. -/
  exit : Int
  /-- The messages printed, in order. -/
  stdout : List Message
  /-- The size passed to `malloc`, `none` when `malloc` was not reached. -/
  allocated : Option Nat
  /-- The work buffer when `main` returns or frees it (`[]` before `malloc`). -/
  data : List (Option Nat)
  /-- The bytes of the output file, `none` when it was never opened. -/
  output : Option (List (Option Nat))
  deriving DecidableEq, Repr

/-- The number of bytes a stream operation of `n` bytes transfers under a limit. -/
def transferred (limit : Option Nat) (n : Nat) : Nat :=
  match limit with
  | none => n
  | some k => min n k

/-- The effect of `fread(ptr, 1, n, file)` on the buffer: the bytes read are
stored at `ptr`, `ptr + 1`, ... in order. -/
def fread (data : List (Option Nat)) (ptr : Nat) (bytes : List Nat) : List (Option Nat) :=
  (List.range bytes.length).foldl (fun d i => d.set (ptr + i) (some (bytes.getD i 0))) data

/-- The value of `ptr[i]` read from the buffer (0 stands for a byte that was
never assigned). -/
def peek (data : List (Option Nat)) (i : Nat) : Nat :=
  (data.getD i none).getD 0

/-- The checksum loop, lines 134-137:
`for (long i = 0; i < bytes_read; i++) checksum += ptr[i];` with
`unsigned char checksum = 0`. -/
def checksumLoop (data : List (Option Nat)) (ptr bytes_read : Nat) : Nat :=
  (List.range bytes_read).foldl (fun checksum i => (checksum + peek data (ptr + i)) % 256) 0

/-- The condition of the range warning, lines 68-69, with `' '` = 32 and
`'_'` = 95. -/
def nameOutOfRange (sgn : Bool) (block_name : List Nat) : Bool :=
  decide (charAt sgn block_name 0 ≤ 32) || decide (charAt sgn block_name 0 > 95) ||
  decide (charAt sgn block_name 1 ≤ 32) || decide (charAt sgn block_name 1 > 95)

/-- The function `main` of `main.c`, statement by statement.  `argv` is the
argument vector (`argc` is its length; the entries of a real argument vector are
never NULL, so the test `block_name == NULL` is always false).  `ftell` is
taken to return the length of the input file.  The sizes are `long` in the
source and natural numbers here: `file_size - 1` is computed only when
`file_size` is at least 1, and past the size checks no size exceeds
`0xFFFF + 26`.  Falling off the end of `main` returns 0. -/
def main (w : World) (argv : List (List Nat)) : Run :=
  if argv.length ≠ 4 then
    { exit := -1, stdout := [Message.usage], allocated := none, data := [], output := none }
  else
  let block_name := argv.getD 1 []
  -- Check the block name.
  if strlen block_name ≠ 2 then
    { exit := -1, stdout := [Message.blockNameLength], allocated := none, data := [],
      output := none }
  else
  let out : List Message :=
    if nameOutOfRange w.charSigned block_name then [Message.blockNameRange] else []
  -- Open the input file.
  match w.input with
  | none =>
    { exit := -1, stdout := out ++ [Message.unableToOpenInput], allocated := none, data := [],
      output := none }
  | some file =>
  if !w.seekEndOk then
    { exit := -1, stdout := out ++ [Message.errorReading], allocated := none, data := [],
      output := none }
  else
  let file_size := file.length
  if file_size = 0 then
    { exit := -1, stdout := out ++ [Message.inputEmpty], allocated := none, data := [],
      output := none }
  else
  if file_size ≥ 0xFFFF then
    { exit := -1, stdout := out ++ [Message.inputTooBig], allocated := none, data := [],
      output := none }
  else
  let data_size := file_size + 13
  if !w.mallocOk then
    { exit := -1, stdout := out ++ [Message.allocationFailed], allocated := some (data_size + 13),
      data := [], output := none }
  else
  let data : List (Option Nat) := List.replicate (data_size + 13) none
  if !w.seekSetOk then
    { exit := -1, stdout := out ++ [Message.errorReading], allocated := some (data_size + 13),
      data := data, output := none }
  else
  let ptr := 0
  let data := data.set ptr (some HEADER_SYNC)
  let ptr := ptr + 1
  let data := data.set ptr (some HEADER_SYNC)
  let ptr := ptr + 1
  let data := data.set ptr (some HEADER_SYNC)
  let ptr := ptr + 1
  let data := data.set ptr (some HEADER_ESC)
  let ptr := ptr + 1
  let header_size := file_size - 1
  let data := data.set ptr (some ((header_size >>> 8) &&& 0xFF))
  let ptr := ptr + 1
  let data := data.set ptr (some (header_size &&& 0xFF))
  let ptr := ptr + 1
  let data := data.set ptr (some (toUChar (charAt w.charSigned block_name 0)))
  let ptr := ptr + 1
  let data := data.set ptr (some (toUChar (charAt w.charSigned block_name 1)))
  let ptr := ptr + 1
  let bytes_read := transferred w.readLimit file_size
  let data := fread data ptr (file.take bytes_read)
  if bytes_read ≠ file_size then
    { exit := -1, stdout := out ++ [Message.errorReading], allocated := some (data_size + 13),
      data := data, output := none }
  else
  let checksum := checksumLoop data ptr bytes_read
  let ptr := ptr + bytes_read
  let data := data.set ptr (some TRAILER_EOT)
  let ptr := ptr + 1
  let data := data.set ptr (some checksum)
  let ptr := ptr + 1
  let data := data.set ptr (some checksum)
  let ptr := ptr + 1
  let data := data.set ptr (some checksum)
  let ptr := ptr + 1
  let data := data.set ptr (some checksum)
  if !w.outputOpenOk then
    { exit := -1, stdout := out ++ [Message.unableToOpenOutput], allocated := some (data_size + 13),
      data := data, output := none }
  else
  let bytes_written := transferred w.writeLimit data_size
  if bytes_written ≠ data_size then
    { exit := -1, stdout := out ++ [Message.errorWriting], allocated := some (data_size + 13),
      data := data, output := some (data.take bytes_written) }
  else
  -- Finished with no issues.
  { exit := 0, stdout := out, allocated := some (data_size + 13), data := data,
    output := some (data.take bytes_written) }

/-- The world in which every library call succeeds and the input file holds
`payload`. -/
def World.ideal (sgn : Bool) (payload : List Nat) : World :=
  { charSigned := sgn, input := some payload, seekEndOk := true, mallocOk := true,
    seekSetOk := true, readLimit := none, outputOpenOk := true, writeLimit := none }

/-- The encoder as the specification sees it: the program run on the block name
`name` and an input file holding `payload`, every library call succeeding.
`arg0`, `inName` and `outName` are the program name and the two file names. -/
def encode (sgn : Bool) (arg0 inName outName : List Nat) (payload name : List Nat) : Run :=
  main (World.ideal sgn payload) [arg0, name, inName, outName]

/-- The checksum of the format: the 8-bit running sum of the payload bytes. -/
def sum8 (p : List Nat) : Nat :=
  p.sum % 256

/-- The byte at offset `i` of the output file: `none` when the file was not
written, is shorter, or holds there a byte the program never assigned. -/
def Run.byteAt (r : Run) (i : Nat) : Option Nat :=
  match r.output with
  | none => none
  | some bytes => bytes.getD i none

/-- The store `*(data + ptr) = v` on the work buffer paired with the log of
the offsets stored to so far: the cell is assigned and the offset is logged. -/
def store (st : List (Option Nat) × List Nat) (ptr v : Nat) : List (Option Nat) × List Nat :=
  (st.1.set ptr (some v), st.2 ++ [ptr])

/-- The effect of `fread(ptr, 1, n, file)` on the buffer and the log: one store
for each byte read, at `ptr`, `ptr + 1`, ... in order. -/
def freadLogged (st : List (Option Nat) × List Nat) (ptr : Nat) (bytes : List Nat) :
    List (Option Nat) × List Nat :=
  (List.range bytes.length).foldl (fun s i => store s (ptr + i) (bytes.getD i 0)) st

/-- The function `main` once more, with the same statements in the same order
as `main`, every store into the work buffer going through `store`: the second
component is the list of the offsets from `data` that the run stored to, in
program order. -/
def mainLogged (w : World) (argv : List (List Nat)) : Run × List Nat :=
  if argv.length ≠ 4 then
    ({ exit := -1, stdout := [Message.usage], allocated := none, data := [], output := none }, [])
  else
  let block_name := argv.getD 1 []
  -- Check the block name.
  if strlen block_name ≠ 2 then
    ({ exit := -1, stdout := [Message.blockNameLength], allocated := none, data := [],
       output := none }, [])
  else
  let out : List Message :=
    if nameOutOfRange w.charSigned block_name then [Message.blockNameRange] else []
  -- Open the input file.
  match w.input with
  | none =>
    ({ exit := -1, stdout := out ++ [Message.unableToOpenInput], allocated := none, data := [],
       output := none }, [])
  | some file =>
  if !w.seekEndOk then
    ({ exit := -1, stdout := out ++ [Message.errorReading], allocated := none, data := [],
       output := none }, [])
  else
  let file_size := file.length
  if file_size = 0 then
    ({ exit := -1, stdout := out ++ [Message.inputEmpty], allocated := none, data := [],
       output := none }, [])
  else
  if file_size ≥ 0xFFFF then
    ({ exit := -1, stdout := out ++ [Message.inputTooBig], allocated := none, data := [],
       output := none }, [])
  else
  let data_size := file_size + 13
  if !w.mallocOk then
    ({ exit := -1, stdout := out ++ [Message.allocationFailed],
       allocated := some (data_size + 13), data := [], output := none }, [])
  else
  let st : List (Option Nat) × List Nat := (List.replicate (data_size + 13) none, [])
  if !w.seekSetOk then
    ({ exit := -1, stdout := out ++ [Message.errorReading], allocated := some (data_size + 13),
       data := st.1, output := none }, st.2)
  else
  let ptr := 0
  let st := store st ptr HEADER_SYNC
  let ptr := ptr + 1
  let st := store st ptr HEADER_SYNC
  let ptr := ptr + 1
  let st := store st ptr HEADER_SYNC
  let ptr := ptr + 1
  let st := store st ptr HEADER_ESC
  let ptr := ptr + 1
  let header_size := file_size - 1
  let st := store st ptr ((header_size >>> 8) &&& 0xFF)
  let ptr := ptr + 1
  let st := store st ptr (header_size &&& 0xFF)
  let ptr := ptr + 1
  let st := store st ptr (toUChar (charAt w.charSigned block_name 0))
  let ptr := ptr + 1
  let st := store st ptr (toUChar (charAt w.charSigned block_name 1))
  let ptr := ptr + 1
  let bytes_read := transferred w.readLimit file_size
  let st := freadLogged st ptr (file.take bytes_read)
  if bytes_read ≠ file_size then
    ({ exit := -1, stdout := out ++ [Message.errorReading], allocated := some (data_size + 13),
       data := st.1, output := none }, st.2)
  else
  let checksum := checksumLoop st.1 ptr bytes_read
  let ptr := ptr + bytes_read
  let st := store st ptr TRAILER_EOT
  let ptr := ptr + 1
  let st := store st ptr checksum
  let ptr := ptr + 1
  let st := store st ptr checksum
  let ptr := ptr + 1
  let st := store st ptr checksum
  let ptr := ptr + 1
  let st := store st ptr checksum
  if !w.outputOpenOk then
    ({ exit := -1, stdout := out ++ [Message.unableToOpenOutput],
       allocated := some (data_size + 13), data := st.1, output := none }, st.2)
  else
  let bytes_written := transferred w.writeLimit data_size
  if bytes_written ≠ data_size then
    ({ exit := -1, stdout := out ++ [Message.errorWriting], allocated := some (data_size + 13),
       data := st.1, output := some (st.1.take bytes_written) }, st.2)
  else
  -- Finished with no issues.
  ({ exit := 0, stdout := out, allocated := some (data_size + 13), data := st.1,
     output := some (st.1.take bytes_written) }, st.2)

/-! ## Auxiliary facts about the buffer operations -/

theorem fread_upto (h t : List (Option Nat)) (bytes : List Nat) (m : Nat)
    (hm : m ≤ bytes.length) (ht : m ≤ t.length) :
    (List.range m).foldl (fun d i => d.set (h.length + i) (some (bytes.getD i 0))) (h ++ t)
      = h ++ ((bytes.take m).map some ++ t.drop m) := by
  induction m with
  | zero => simp
  | succ k ih =>
    have hk : k < bytes.length := by omega
    have hkt : k < t.length := by omega
    rw [List.range_succ, List.foldl_append, ih (by omega) (by omega)]
    simp only [List.foldl_cons, List.foldl_nil]
    rw [List.set_append_right _ _ (by omega)]
    rw [List.set_append_right _ _ (by simp)]
    have e1 : h.length + k - h.length - (List.map some (List.take k bytes)).length = 0 := by
      simp; omega
    have e2 : (bytes.take (k + 1)).map some = (bytes.take k).map some ++ [some bytes[k]] := by
      rw [List.take_succ, List.getElem?_eq_getElem hk, List.map_append]
      rfl
    rw [e1, List.drop_eq_getElem_cons hkt, List.set_cons_zero, List.getD_eq_getElem _ _ hk, e2,
      List.append_assoc]
    rfl

theorem fread_append (h t : List (Option Nat)) (bytes : List Nat)
    (ht : bytes.length ≤ t.length) :
    fread (h ++ t) h.length bytes = h ++ (bytes.map some ++ t.drop bytes.length) := by
  unfold fread
  rw [fread_upto h t bytes bytes.length (le_refl _) ht, List.take_length]

theorem peek_payload (h t : List (Option Nat)) (p : List Nat) (i : Nat) (hi : i < p.length) :
    peek (h ++ (p.map some ++ t)) (h.length + i) = p.getD i 0 := by
  unfold peek
  rw [List.getD_append_right _ _ _ _ (by omega)]
  rw [List.getD_append _ _ _ _ (by simp; omega)]
  simp [List.getD_eq_getElem?_getD, hi]

theorem checksumLoop_upto (h t : List (Option Nat)) (p : List Nat) (m : Nat)
    (hm : m ≤ p.length) :
    checksumLoop (h ++ (p.map some ++ t)) h.length m = (p.take m).sum % 256 := by
  unfold checksumLoop
  induction m with
  | zero => simp
  | succ k ih =>
    have hk : k < p.length := by omega
    rw [List.range_succ, List.foldl_append, ih (by omega)]
    simp only [List.foldl_cons, List.foldl_nil]
    rw [peek_payload h t p k hk, List.sum_take_succ p k hk, List.getD_eq_getElem _ _ hk]
    omega

theorem checksumLoop_payload (h t : List (Option Nat)) (p : List Nat) :
    checksumLoop (h ++ (p.map some ++ t)) h.length p.length = sum8 p := by
  rw [checksumLoop_upto h t p p.length (le_refl _), List.take_length, sum8]

theorem toUChar_charAt (sgn : Bool) (s : List Nat) (i : Nat) (hb : s.getD i 0 < 256) :
    toUChar (charAt sgn s i) = s.getD i 0 := by
  unfold toUChar charAt
  cases sgn
  · simp only [Bool.false_and, Bool.false_eq_true, if_false]
    omega
  · simp only [Bool.true_and, decide_eq_true_eq]
    split <;> omega

theorem strlen_pair (n0 n1 : Nat) (h0 : n0 ≠ 0) (h1 : n1 ≠ 0) : strlen [n0, n1] = 2 := by
  have e0 : (n0 != 0) = true := by simpa using h0
  have e1 : (n1 != 0) = true := by simpa using h1
  simp [strlen, List.takeWhile, e0, e1]

theorem length_field_hi (k : Nat) : (k >>> 8) &&& 0xFF = k / 256 % 256 := by
  rw [Nat.shiftRight_eq_div_pow]
  exact Nat.and_pow_two_sub_one_eq_mod _ 8

theorem length_field_lo (k : Nat) : k &&& 0xFF = k % 256 :=
  Nat.and_pow_two_sub_one_eq_mod _ 8

theorem header_writes (N : Nat) (a0 a1 a2 a3 a4 a5 a6 a7 : Option Nat) :
    ((((((((List.replicate (N + 13 + 13) (none : Option Nat)).set 0 a0).set 1 a1).set 2 a2).set 3
      a3).set 4 a4).set 5 a5).set 6 a6).set 7 a7
      = [a0, a1, a2, a3, a4, a5, a6, a7] ++ List.replicate (N + 18) none := by
  have e : N + 13 + 13 = N + 18 + 1 + 1 + 1 + 1 + 1 + 1 + 1 + 1 := by omega
  rw [e]
  simp only [List.replicate_succ, List.set_cons_zero, List.set_cons_succ]
  rfl

theorem fread_header (a0 a1 a2 a3 a4 a5 a6 a7 : Option Nat) (t : List (Option Nat))
    (p : List Nat) (ht : p.length ≤ t.length) :
    fread ([a0, a1, a2, a3, a4, a5, a6, a7] ++ t) 8 p
      = [a0, a1, a2, a3, a4, a5, a6, a7] ++ (p.map some ++ t.drop p.length) :=
  fread_append [a0, a1, a2, a3, a4, a5, a6, a7] t p ht

theorem checksumLoop_header (a0 a1 a2 a3 a4 a5 a6 a7 : Option Nat) (t : List (Option Nat))
    (p : List Nat) :
    checksumLoop ([a0, a1, a2, a3, a4, a5, a6, a7] ++ (p.map some ++ t)) 8 p.length = sum8 p :=
  checksumLoop_payload [a0, a1, a2, a3, a4, a5, a6, a7] t p

theorem trailer_writes (h : List (Option Nat)) (p : List Nat) (k : Nat) (hk : k = h.length + p.length)
    (b0 b1 b2 b3 b4 : Option Nat) :
    (((((h ++ (p.map some ++ List.replicate 18 none)).set k b0).set (k + 1) b1).set (k + 1 + 1)
      b2).set (k + 1 + 1 + 1) b3).set (k + 1 + 1 + 1 + 1) b4
      = h ++ (p.map some ++ ([b0, b1, b2, b3, b4] ++ List.replicate 13 none)) := by
  subst hk
  have e : ∀ j, h.length + p.length + j - h.length - (List.map some p).length = j := by
    intro j; simp; omega
  have e0 := e 0
  rw [List.set_append_right _ _ (by omega), List.set_append_right _ _ (by omega),
    List.set_append_right _ _ (by omega), List.set_append_right _ _ (by omega),
    List.set_append_right _ _ (by omega)]
  rw [List.set_append_right _ _ (by simp), List.set_append_right _ _ (by simp; omega),
    List.set_append_right _ _ (by simp; omega), List.set_append_right _ _ (by simp; omega),
    List.set_append_right _ _ (by simp; omega)]
  rw [e 1, e (1 + 1), e (1 + 1 + 1), e (1 + 1 + 1 + 1)]
  simp only [Nat.add_zero] at e0
  rw [e0]
  rfl

theorem trailer_header (a0 a1 a2 a3 a4 a5 a6 a7 : Option Nat) (p : List Nat)
    (b0 b1 b2 b3 b4 : Option Nat) :
    ((((([a0, a1, a2, a3, a4, a5, a6, a7] ++ (p.map some ++ List.replicate 18 none)).set
      (8 + p.length) b0).set (8 + p.length + 1) b1).set (8 + p.length + 1 + 1) b2).set
        (8 + p.length + 1 + 1 + 1) b3).set (8 + p.length + 1 + 1 + 1 + 1) b4
      = [a0, a1, a2, a3, a4, a5, a6, a7]
          ++ (p.map some ++ ([b0, b1, b2, b3, b4] ++ List.replicate 13 none)) :=
  trailer_writes [a0, a1, a2, a3, a4, a5, a6, a7] p (8 + p.length) rfl b0 b1 b2 b3 b4

theorem take_frame (h : List (Option Nat)) (p : List Nat) (tr rest : List (Option Nat)) (n : Nat)
    (hn : n = h.length + p.length + tr.length) :
    List.take n (h ++ (p.map some ++ (tr ++ rest))) = h ++ (p.map some ++ tr) := by
  have e : h ++ (p.map some ++ (tr ++ rest)) = (h ++ (p.map some ++ tr)) ++ rest := by
    simp
  rw [e]
  apply List.take_left'
  simp
  omega

theorem main_ideal (sgn : Bool) (a0 a2 a3 p : List Nat) (n0 n1 : Nat)
    (hp0 : p ≠ []) (hp : p.length < 0xFFFF)
    (h0 : n0 ≠ 0) (hb0 : n0 < 256) (h1 : n1 ≠ 0) (hb1 : n1 < 256) :
    encode sgn a0 a2 a3 p [n0, n1] =
      { exit := 0
        stdout := if nameOutOfRange sgn [n0, n1] then [Message.blockNameRange] else []
        allocated := some (p.length + 13 + 13)
        data := ([0x16, 0x16, 0x16, 0x1B, (p.length - 1) / 256 % 256, (p.length - 1) % 256,
            n0, n1] ++ p ++ [0x17, sum8 p, sum8 p, sum8 p, sum8 p]).map some
              ++ List.replicate 13 none
        output := some (([0x16, 0x16, 0x16, 0x1B, (p.length - 1) / 256 % 256,
            (p.length - 1) % 256, n0, n1] ++ p ++ [0x17, sum8 p, sum8 p, sum8 p, sum8 p]).map
              some) } := by
  have hlen : p.length ≠ 0 := by
    intro h
    exact hp0 (List.length_eq_zero.mp h)
  have hs := strlen_pair n0 n1 h0 h1
  have hc0 : toUChar (charAt sgn [n0, n1] 0) = n0 := toUChar_charAt sgn [n0, n1] 0 hb0
  have hc1 : toUChar (charAt sgn [n0, n1] 1) = n1 := toUChar_charAt sgn [n0, n1] 1 hb1
  have hbig : ¬ (p.length ≥ 0xFFFF) := by omega
  simp only [encode, main, World.ideal, List.length_cons, List.length_nil, List.getD_cons_succ,
    List.getD_cons_zero, hs, hlen, hbig, transferred, hc0, hc1, length_field_hi, length_field_lo,
    Bool.not_true, ne_eq, not_true_eq_false, if_false, Bool.false_eq_true, zero_add,
    Nat.reduceAdd, header_writes]
  have hfr := fun (b0 b1 b2 b3 b4 b5 b6 b7 : Option Nat) =>
    fread_header b0 b1 b2 b3 b4 b5 b6 b7 (List.replicate (p.length + 18) none) p (by simp)
  have hdrop : List.drop p.length (List.replicate (p.length + 18) (none : Option Nat))
      = List.replicate 18 none := by
    rw [List.drop_replicate]
    congr 1
    omega
  rw [List.take_length, hfr, hdrop, checksumLoop_header]
  rw [trailer_header, take_frame _ p _ _ _ (by simp; omega)]
  simp [HEADER_SYNC, HEADER_ESC, TRAILER_EOT, Nat.shiftRight_eq_div_pow]

theorem strlen_pair_ne (n0 n1 : Nat) (h : strlen [n0, n1] = 2) : n0 ≠ 0 ∧ n1 ≠ 0 := by
  unfold strlen at h
  rcases Nat.eq_zero_or_pos n0 with h0 | h0
  · subst h0
    simp [List.takeWhile] at h
  · rcases Nat.eq_zero_or_pos n1 with h1 | h1
    · subst h1
      have e0 : (n0 != 0) = true := by simpa using (Nat.pos_iff_ne_zero.mp h0)
      simp [List.takeWhile, e0] at h
    · exact ⟨by omega, by omega⟩

theorem encode_valid (sgn : Bool) (a0 inName outName p : List Nat) (n0 n1 : Nat)
    (hp1 : 1 ≤ p.length) (hp2 : p.length ≤ 65534)
    (hn : strlen [n0, n1] = 2) (hb0 : n0 < 256) (hb1 : n1 < 256) :
    encode sgn a0 inName outName p [n0, n1] =
      { exit := 0
        stdout := if nameOutOfRange sgn [n0, n1] then [Message.blockNameRange] else []
        allocated := some (p.length + 13 + 13)
        data := ([0x16, 0x16, 0x16, 0x1B, (p.length - 1) / 256 % 256, (p.length - 1) % 256,
            n0, n1] ++ p ++ [0x17, sum8 p, sum8 p, sum8 p, sum8 p]).map some
              ++ List.replicate 13 none
        output := some (([0x16, 0x16, 0x16, 0x1B, (p.length - 1) / 256 % 256,
            (p.length - 1) % 256, n0, n1] ++ p ++ [0x17, sum8 p, sum8 p, sum8 p, sum8 p]).map
              some) } := by
  have hne := strlen_pair_ne n0 n1 hn
  have hp0 : p ≠ [] := by
    intro h
    subst h
    simp at hp1
  exact main_ideal sgn a0 inName outName p n0 n1 hp0 (by omega) hne.1 hb0 hne.2 hb1

theorem frame_getD_trailer (H p T : List Nat) (i k : Nat) (hi : i = H.length + p.length + k) :
    ((H ++ p ++ T).map some).getD i none = (T.map some).getD k none := by
  subst hi
  rw [List.map_append, List.getD_append_right _ _ _ _ (by simp)]
  congr 1
  simp

theorem frame_payload_slice (H p T : List Nat) (k : Nat) (hk : k = H.length) :
    ((((H ++ p ++ T).map some).drop k).take p.length) = p.map some := by
  subst hk
  rw [List.append_assoc, List.map_append, List.drop_left' (by simp), List.map_append]
  exact List.take_left' (by simp)

theorem nameOutOfRange_iff (sgn : Bool) (n0 n1 : Nat) (hb0 : n0 < 256) (hb1 : n1 < 256) :
    nameOutOfRange sgn [n0, n1] = true ↔ ¬ (0x21 ≤ n0 ∧ n0 ≤ 0x5F ∧ 0x21 ≤ n1 ∧ n1 ≤ 0x5F) := by
  unfold nameOutOfRange charAt
  cases sgn
  · simp only [Bool.false_and, Bool.false_eq_true, if_false, List.getD_cons_zero,
      List.getD_cons_succ, Bool.or_eq_true, decide_eq_true_eq]
    omega
  · simp only [Bool.true_and, decide_eq_true_eq, List.getD_cons_zero, List.getD_cons_succ,
      Bool.or_eq_true]
    split <;> split <;> omega

theorem encode_bad_name (sgn : Bool) (a0 inName outName p n : List Nat) (hn : strlen n ≠ 2) :
    encode sgn a0 inName outName p n =
      { exit := -1, stdout := [Message.blockNameLength], allocated := none, data := [],
        output := none } := by
  simp [encode, main, hn]

theorem encode_empty (sgn : Bool) (a0 inName outName : List Nat) (n : List Nat)
    (hn : strlen n = 2) :
    encode sgn a0 inName outName [] n =
      { exit := -1
        stdout := (if nameOutOfRange sgn n then [Message.blockNameRange] else [])
          ++ [Message.inputEmpty]
        allocated := none, data := [], output := none } := by
  simp [encode, main, hn, World.ideal]

theorem encode_too_big (sgn : Bool) (a0 inName outName p : List Nat) (n : List Nat)
    (hn : strlen n = 2) (hp : 0xFFFF ≤ p.length) :
    encode sgn a0 inName outName p n =
      { exit := -1
        stdout := (if nameOutOfRange sgn n then [Message.blockNameRange] else [])
          ++ [Message.inputTooBig]
        allocated := none, data := [], output := none } := by
  have h0 : p.length ≠ 0 := by omega
  have h0' : p ≠ [] := fun h => h0 (by rw [h]; rfl)
  simp [encode, main, hn, World.ideal, h0', hp]

theorem main_ideal_name (sgn : Bool) (a0 a2 a3 p n : List Nat)
    (hp0 : p ≠ []) (hp : p.length < 0xFFFF) (hs : strlen n = 2) :
    encode sgn a0 a2 a3 p n =
      { exit := 0
        stdout := if nameOutOfRange sgn n then [Message.blockNameRange] else []
        allocated := some (p.length + 13 + 13)
        data := ([0x16, 0x16, 0x16, 0x1B, (p.length - 1) / 256 % 256, (p.length - 1) % 256,
            toUChar (charAt sgn n 0), toUChar (charAt sgn n 1)] ++ p
              ++ [0x17, sum8 p, sum8 p, sum8 p, sum8 p]).map some ++ List.replicate 13 none
        output := some (([0x16, 0x16, 0x16, 0x1B, (p.length - 1) / 256 % 256,
            (p.length - 1) % 256, toUChar (charAt sgn n 0), toUChar (charAt sgn n 1)] ++ p
              ++ [0x17, sum8 p, sum8 p, sum8 p, sum8 p]).map some) } := by
  have hlen : p.length ≠ 0 := by
    intro h
    exact hp0 (List.length_eq_zero.mp h)
  have hbig : ¬ (p.length ≥ 0xFFFF) := by omega
  simp only [encode, main, World.ideal, List.length_cons, List.length_nil, List.getD_cons_succ,
    List.getD_cons_zero, hs, hlen, hbig, transferred, length_field_hi, length_field_lo,
    Bool.not_true, ne_eq, not_true_eq_false, if_false, Bool.false_eq_true, zero_add,
    Nat.reduceAdd, header_writes]
  have hfr := fun (b0 b1 b2 b3 b4 b5 b6 b7 : Option Nat) =>
    fread_header b0 b1 b2 b3 b4 b5 b6 b7 (List.replicate (p.length + 18) none) p (by simp)
  have hdrop : List.drop p.length (List.replicate (p.length + 18) (none : Option Nat))
      = List.replicate 18 none := by
    rw [List.drop_replicate]
    congr 1
    omega
  rw [List.take_length, hfr, hdrop, checksumLoop_header]
  rw [trailer_header, take_frame _ p _ _ _ (by simp; omega)]
  simp [HEADER_SYNC, HEADER_ESC, TRAILER_EOT, Nat.shiftRight_eq_div_pow]

theorem sum_replicate_one (k : Nat) : (List.replicate k 1).sum = k := by
  induction k with
  | zero => rfl
  | succ j ih => rw [List.replicate_succ, List.sum_cons, ih, Nat.add_comm]

theorem getD_lt_of_forall (n : List Nat) (i : Nat) (hn : ∀ b ∈ n, b < 256) :
    n.getD i 0 < 256 := by
  by_cases hi : i < n.length
  · rw [List.getD_eq_getElem _ _ hi]
    exact hn _ (List.getElem_mem hi)
  · rw [List.getD_eq_default _ _ (by omega)]
    decide

theorem nameOutOfRange_sgn (n : List Nat) (h0 : n.getD 0 0 < 256) (h1 : n.getD 1 0 < 256) :
    nameOutOfRange true n = nameOutOfRange false n := by
  rw [Bool.eq_iff_iff]
  unfold nameOutOfRange charAt
  simp only [Bool.true_and, Bool.false_and, Bool.false_eq_true, if_false, decide_eq_true_eq,
    Bool.or_eq_true]
  split <;> split <;> omega

theorem nameOutOfRange_any_sgn (sgn sgn2 : Bool) (n : List Nat) (hn : ∀ b ∈ n, b < 256) :
    nameOutOfRange sgn n = nameOutOfRange sgn2 n := by
  have h := nameOutOfRange_sgn n (getD_lt_of_forall n 0 hn) (getD_lt_of_forall n 1 hn)
  cases sgn <;> cases sgn2 <;> simp [h]

theorem toUChar_charAt_any_sgn (sgn sgn2 : Bool) (n : List Nat) (i : Nat)
    (hn : ∀ b ∈ n, b < 256) :
    toUChar (charAt sgn n i) = toUChar (charAt sgn2 n i) := by
  rw [toUChar_charAt sgn n i (getD_lt_of_forall n i hn),
    toUChar_charAt sgn2 n i (getD_lt_of_forall n i hn)]

theorem frame_no_gap (l : List Nat) : ∀ c ∈ l.map some, c ≠ (none : Option Nat) := by
  intro c hc
  rcases List.mem_map.mp hc with ⟨b, _, hb⟩
  rw [← hb]
  exact Option.some_ne_none b

theorem foldl_store_fst (ptr : Nat) (bytes : List Nat) (l : List Nat) :
    ∀ st : List (Option Nat) × List Nat,
      (l.foldl (fun s i => store s (ptr + i) (bytes.getD i 0)) st).1
        = l.foldl (fun d i => d.set (ptr + i) (some (bytes.getD i 0))) st.1 := by
  induction l with
  | nil => intro st; rfl
  | cons a t ih =>
    intro st
    rw [List.foldl_cons, List.foldl_cons, ih]
    rfl

theorem foldl_store_snd (ptr : Nat) (bytes : List Nat) (l : List Nat) :
    ∀ st : List (Option Nat) × List Nat,
      (l.foldl (fun s i => store s (ptr + i) (bytes.getD i 0)) st).2
        = st.2 ++ l.map (fun i => ptr + i) := by
  induction l with
  | nil => intro st; simp
  | cons a t ih =>
    intro st
    rw [List.foldl_cons, ih]
    simp [store]

theorem freadLogged_fst (st : List (Option Nat) × List Nat) (ptr : Nat) (bytes : List Nat) :
    (freadLogged st ptr bytes).1 = fread st.1 ptr bytes :=
  foldl_store_fst ptr bytes _ st

theorem freadLogged_snd (st : List (Option Nat) × List Nat) (ptr : Nat) (bytes : List Nat) :
    (freadLogged st ptr bytes).2 = st.2 ++ (List.range bytes.length).map (fun i => ptr + i) :=
  foldl_store_snd ptr bytes _ st

theorem store_fst (st : List (Option Nat) × List Nat) (ptr v : Nat) :
    (store st ptr v).1 = st.1.set ptr (some v) := rfl

theorem store_snd (st : List (Option Nat) × List Nat) (ptr v : Nat) :
    (store st ptr v).2 = st.2 ++ [ptr] := rfl

theorem mainLogged_fst (w : World) (argv : List (List Nat)) :
    (mainLogged w argv).1 = main w argv := by
  unfold mainLogged main
  obtain ⟨cs, inp, se, ma, ss, rl, oo, wl⟩ := w
  by_cases h1 : argv.length ≠ 4
  · rw [if_pos h1, if_pos h1]
  · rw [if_neg h1, if_neg h1]
    dsimp only
    by_cases h2 : strlen (argv.getD 1 []) ≠ 2
    · rw [if_pos h2, if_pos h2]
    · rw [if_neg h2, if_neg h2]
      cases inp with
      | none => rfl
      | some file =>
        dsimp only
        by_cases h3 : (!se) = true
        · rw [if_pos h3, if_pos h3]
        · rw [if_neg h3, if_neg h3]
          by_cases h4 : file.length = 0
          · rw [if_pos h4, if_pos h4]
          · rw [if_neg h4, if_neg h4]
            by_cases h5 : file.length ≥ 0xFFFF
            · rw [if_pos h5, if_pos h5]
            · rw [if_neg h5, if_neg h5]
              by_cases h6 : (!ma) = true
              · rw [if_pos h6, if_pos h6]
              · rw [if_neg h6, if_neg h6]
                by_cases h7 : (!ss) = true
                · rw [if_pos h7, if_pos h7]
                · rw [if_neg h7, if_neg h7]
                  by_cases h8 : transferred rl file.length ≠ file.length
                  · rw [if_pos h8, if_pos h8]
                    simp only [store_fst, freadLogged_fst]
                  · rw [if_neg h8, if_neg h8]
                    by_cases h9 : (!oo) = true
                    · rw [if_pos h9, if_pos h9]
                      simp only [store_fst, freadLogged_fst]
                    · rw [if_neg h9, if_neg h9]
                      by_cases h10 : transferred wl (file.length + 13) ≠ file.length + 13
                      · rw [if_pos h10, if_pos h10]
                        simp only [store_fst, freadLogged_fst]
                      · rw [if_neg h10, if_neg h10]
                        simp only [store_fst, freadLogged_fst]

theorem mainLogged_ideal_log (sgn : Bool) (a0 a2 a3 p n : List Nat)
    (hp0 : p ≠ []) (hp : p.length < 0xFFFF) (hs : strlen n = 2) :
    (mainLogged (World.ideal sgn p) [a0, n, a2, a3]).2 =
      [0, 1, 2, 3, 4, 5, 6, 7] ++ ((List.range p.length).map (fun i => 8 + i)
        ++ [8 + p.length, 8 + p.length + 1, 8 + p.length + 2, 8 + p.length + 3,
          8 + p.length + 4]) := by
  have hlen : p.length ≠ 0 := by
    intro h
    exact hp0 (List.length_eq_zero.mp h)
  have hbig : ¬ (p.length ≥ 0xFFFF) := by omega
  simp only [mainLogged, World.ideal, List.length_cons, List.length_nil, List.getD_cons_succ,
    List.getD_cons_zero, hs, hlen, hbig, transferred, Bool.not_true, ne_eq, not_true_eq_false,
    if_false, Bool.false_eq_true, zero_add, Nat.reduceAdd, store_snd, freadLogged_snd,
    List.take_length, List.nil_append, List.cons_append, List.append_assoc]

theorem mem_log_iff (len k : Nat) :
    k ∈ [0, 1, 2, 3, 4, 5, 6, 7] ++ ((List.range len).map (fun i => 8 + i)
        ++ [8 + len, 8 + len + 1, 8 + len + 2, 8 + len + 3, 8 + len + 4])
      ↔ k < len + 13 := by
  simp only [List.mem_append, List.mem_cons, List.mem_map, List.mem_range, List.mem_nil_iff,
    or_false]
  constructor
  · intro h
    rcases h with h | h | h
    · omega
    · obtain ⟨a, ha, rfl⟩ := h
      omega
    · omega
  · intro h
    by_cases h8 : k < 8
    · left
      omega
    · by_cases h9 : k < 8 + len
      · right
        left
        exact ⟨k - 8, by omega, by omega⟩
      · right
        right
        omega

theorem cells_assigned (F : List Nat) (rest : List (Option Nat)) (k : Nat) (hk : k < F.length) :
    ∃ b, (F.map some ++ rest).getD k none = some b := by
  refine ⟨F.getD k 0, ?_⟩
  rw [List.getD_append _ _ _ _ (by simp; exact hk), List.getD_eq_getElem _ _ (by simp; exact hk),
    List.getD_eq_getElem _ _ hk]
  simp

theorem cells_unassigned (F : List Nat) (j k : Nat) (hk : F.length ≤ k) :
    (F.map some ++ List.replicate j none).getD k none = none := by
  rw [List.getD_append_right _ _ _ _ (by simp; exact hk)]
  by_cases h : k - (F.map some).length < (List.replicate j (none : Option Nat)).length
  · rw [List.getD_eq_getElem _ _ h]
    simp
  · rw [List.getD_eq_default _ _ (by omega)]

/-! ## The claims

In the statements below `encode sgn arg0 inName outName p n` is the run of the
program on the payload `p` and the block name `n`, on either signedness of
`char` and for any program name and file names.  A two-byte name is an argument
`[n0, n1]` of two bytes (`n0 < 256`, `n1 < 256`) that `strlen` measures as 2,
the way line 63 of `main.c` tests it.  The output of a successful run is the
list of the bytes given to `fwrite`, each of them `some b` for an assigned
byte `b`. -/

/-- C1: for every payload `p` with `1 ≤ len(p) ≤ 65534` and every two-byte name
`[n0, n1]` (an argument of two bytes, `strlen` = 2), the run succeeds and the
output file is exactly `16 16 16 1B hi lo n0 n1`, then `p`, then `17 c c c c`,
with `hi = ((len(p) - 1) / 256) mod 256`, `lo = (len(p) - 1) mod 256` and
`c = (sum of the bytes of p) mod 256`. -/
theorem C1_output_is_frame (sgn : Bool) (a0 inName outName p : List Nat) (n0 n1 : Nat)
    (hp1 : 1 ≤ p.length) (hp2 : p.length ≤ 65534)
    (hn : strlen [n0, n1] = 2) (hb0 : n0 < 256) (hb1 : n1 < 256) :
    (encode sgn a0 inName outName p [n0, n1]).exit = 0 ∧
    (encode sgn a0 inName outName p [n0, n1]).output =
      some (([0x16, 0x16, 0x16, 0x1B, ((p.length - 1) / 256) % 256, (p.length - 1) % 256,
        n0, n1] ++ p ++ [0x17, p.sum % 256, p.sum % 256, p.sum % 256, p.sum % 256]).map some) := by
  rw [encode_valid sgn a0 inName outName p n0 n1 hp1 hp2 hn hb0 hb1]
  exact ⟨rfl, rfl⟩

/-- Witness of C1: a four-byte payload under the name `S1`. -/
theorem C1_output_is_frame_witness :
    (encode true [] [] [] [0xC3, 0x50, 0x00, 0xFE] [0x53, 0x31]).exit = 0 ∧
    (encode true [] [] [] [0xC3, 0x50, 0x00, 0xFE] [0x53, 0x31]).output =
      some ([0x16, 0x16, 0x16, 0x1B, 0, 3, 0x53, 0x31, 0xC3, 0x50, 0x00, 0xFE,
        0x17, 0x11, 0x11, 0x11, 0x11].map some) :=
  C1_output_is_frame true [] [] [] [0xC3, 0x50, 0x00, 0xFE] 0x53 0x31
    (by decide) (by decide) (by decide) (by decide) (by decide)

/-- C2: for every non-empty payload `p` with `len(p) < 0xFFFF` and every
two-byte name, the bytes handed to the writer are exactly `len(p) + 13` many. -/
theorem C2_output_length (sgn : Bool) (a0 inName outName p : List Nat) (n0 n1 : Nat)
    (hp0 : p ≠ []) (hp : p.length < 0xFFFF)
    (hn : strlen [n0, n1] = 2) (hb0 : n0 < 256) (hb1 : n1 < 256) :
    (encode sgn a0 inName outName p [n0, n1]).output.map List.length = some (p.length + 13) := by
  have hne := strlen_pair_ne n0 n1 hn
  rw [main_ideal sgn a0 inName outName p n0 n1 hp0 hp hne.1 hb0 hne.2 hb1]
  simp

/-- Witness of C2: a two-byte payload under the name `A_`. -/
theorem C2_output_length_witness :
    (encode false [] [] [] [0xFF, 0x01] [0x41, 0x5F]).output.map List.length = some (2 + 13) :=
  C2_output_length false [] [] [] [0xFF, 0x01] 0x41 0x5F
    (by decide) (by decide) (by decide) (by decide) (by decide)

/-- C3: for every valid payload `p` and two-byte name, bytes 4 and 5 of the
output, read as a big-endian 16-bit number, are `len(p) - 1`: adding 1 to
`256 * out[4] + out[5]` gives `len(p)` exactly, nothing is lost to the masks. -/
theorem C3_length_field (sgn : Bool) (a0 inName outName p : List Nat) (n0 n1 : Nat)
    (hp1 : 1 ≤ p.length) (hp2 : p.length ≤ 65534)
    (hn : strlen [n0, n1] = 2) (hb0 : n0 < 256) (hb1 : n1 < 256) :
    ∃ hi lo : Nat,
      (encode sgn a0 inName outName p [n0, n1]).byteAt 4 = some hi ∧
      (encode sgn a0 inName outName p [n0, n1]).byteAt 5 = some lo ∧
      hi < 256 ∧ lo < 256 ∧
      256 * hi + lo = p.length - 1 ∧ 256 * hi + lo + 1 = p.length := by
  rw [encode_valid sgn a0 inName outName p n0 n1 hp1 hp2 hn hb0 hb1]
  refine ⟨(p.length - 1) / 256 % 256, (p.length - 1) % 256, ?_, ?_, ?_, ?_, ?_, ?_⟩
  · simp [Run.byteAt]
  · simp [Run.byteAt]
  · omega
  · omega
  · omega
  · omega

/-- Witness of C3: a three-byte payload, whose length field reads 2. -/
theorem C3_length_field_witness :
    ∃ hi lo : Nat,
      (encode true [] [] [] [9, 8, 7] [0x58, 0x59]).byteAt 4 = some hi ∧
      (encode true [] [] [] [9, 8, 7] [0x58, 0x59]).byteAt 5 = some lo ∧
      hi < 256 ∧ lo < 256 ∧ 256 * hi + lo = 3 - 1 ∧ 256 * hi + lo + 1 = 3 :=
  C3_length_field true [] [] [] [9, 8, 7] 0x58 0x59
    (by decide) (by decide) (by decide) (by decide) (by decide)

/-- C4: for every valid payload `p` and two-byte name, the four output bytes at
offsets `9 + len(p)` to `12 + len(p)` are equal to each other and to the sum of
the bytes of `p` modulo 256 (the 8-bit accumulator starts at 0 and wraps). -/
theorem C4_trailer_checksum (sgn : Bool) (a0 inName outName p : List Nat) (n0 n1 : Nat)
    (hp1 : 1 ≤ p.length) (hp2 : p.length ≤ 65534)
    (hn : strlen [n0, n1] = 2) (hb0 : n0 < 256) (hb1 : n1 < 256) :
    (encode sgn a0 inName outName p [n0, n1]).byteAt (9 + p.length) = some (p.sum % 256) ∧
    (encode sgn a0 inName outName p [n0, n1]).byteAt (10 + p.length) = some (p.sum % 256) ∧
    (encode sgn a0 inName outName p [n0, n1]).byteAt (11 + p.length) = some (p.sum % 256) ∧
    (encode sgn a0 inName outName p [n0, n1]).byteAt (12 + p.length) = some (p.sum % 256) := by
  rw [encode_valid sgn a0 inName outName p n0 n1 hp1 hp2 hn hb0 hb1]
  simp only [Run.byteAt]
  refine ⟨?_, ?_, ?_, ?_⟩
  · rw [frame_getD_trailer _ p _ _ 1 (by simp; omega)]
    rfl
  · rw [frame_getD_trailer _ p _ _ 2 (by simp; omega)]
    rfl
  · rw [frame_getD_trailer _ p _ _ 3 (by simp; omega)]
    rfl
  · rw [frame_getD_trailer _ p _ _ 4 (by simp; omega)]
    rfl

/-- Witness of C4: the bytes `F0 20 05` sum to `0x115`, which wraps to `0x15`. -/
theorem C4_trailer_checksum_witness :
    (encode true [] [] [] [0xF0, 0x20, 0x05] [0x43, 0x34]).byteAt 12 = some 0x15 ∧
    (encode true [] [] [] [0xF0, 0x20, 0x05] [0x43, 0x34]).byteAt 13 = some 0x15 ∧
    (encode true [] [] [] [0xF0, 0x20, 0x05] [0x43, 0x34]).byteAt 14 = some 0x15 ∧
    (encode true [] [] [] [0xF0, 0x20, 0x05] [0x43, 0x34]).byteAt 15 = some 0x15 :=
  C4_trailer_checksum true [] [] [] [0xF0, 0x20, 0x05] 0x43 0x34
    (by decide) (by decide) (by decide) (by decide) (by decide)

/-- C5: for every valid payload `p` and two-byte name, the slice of the output
from offset 8 to offset `8 + len(p)` is `p`, byte for byte and in order. -/
theorem C5_payload_verbatim (sgn : Bool) (a0 inName outName p : List Nat) (n0 n1 : Nat)
    (hp1 : 1 ≤ p.length) (hp2 : p.length ≤ 65534)
    (hn : strlen [n0, n1] = 2) (hb0 : n0 < 256) (hb1 : n1 < 256) :
    (encode sgn a0 inName outName p [n0, n1]).output.map
      (fun out => (out.drop 8).take p.length) = some (p.map some) := by
  rw [encode_valid sgn a0 inName outName p n0 n1 hp1 hp2 hn hb0 hb1]
  simp only [Option.map_some']
  rw [frame_payload_slice [0x16, 0x16, 0x16, 0x1B, (p.length - 1) / 256 % 256,
    (p.length - 1) % 256, n0, n1] p _ 8 rfl]

/-- Witness of C5: a payload that itself holds the sync and end markers. -/
theorem C5_payload_verbatim_witness :
    (encode false [] [] [] [0x16, 0x17, 0x1B, 0x00, 0xFF] [0x50, 0x47]).output.map
      (fun out => (out.drop 8).take 5) = some ([0x16, 0x17, 0x1B, 0x00, 0xFF].map some) :=
  C5_payload_verbatim false [] [] [] [0x16, 0x17, 0x1B, 0x00, 0xFF] 0x50 0x47
    (by decide) (by decide) (by decide) (by decide) (by decide)

/-- C6: for every valid payload and every two-byte name `[n0, n1]`, in the
range `0x21..0x5F` or not, bytes 6 and 7 of the output are `n0` and `n1`. -/
theorem C6_name_verbatim (sgn : Bool) (a0 inName outName p : List Nat) (n0 n1 : Nat)
    (hp1 : 1 ≤ p.length) (hp2 : p.length ≤ 65534)
    (hn : strlen [n0, n1] = 2) (hb0 : n0 < 256) (hb1 : n1 < 256) :
    (encode sgn a0 inName outName p [n0, n1]).byteAt 6 = some n0 ∧
    (encode sgn a0 inName outName p [n0, n1]).byteAt 7 = some n1 := by
  rw [encode_valid sgn a0 inName outName p n0 n1 hp1 hp2 hn hb0 hb1]
  simp [Run.byteAt]

/-- Witness of C6: the name bytes `E9 7A` lie outside `0x21..0x5F`, one of them
negative as a signed `char`. -/
theorem C6_name_verbatim_witness :
    (encode true [] [] [] [0x2A] [0xE9, 0x7A]).byteAt 6 = some 0xE9 ∧
    (encode true [] [] [] [0x2A] [0xE9, 0x7A]).byteAt 7 = some 0x7A :=
  C6_name_verbatim true [] [] [] [0x2A] 0xE9 0x7A
    (by decide) (by decide) (by decide) (by decide) (by decide)

/-- C7: for every payload, of any length, and every name whose length
(`strlen`) is not 2, the run fails with the message on the block name length
(`InvalidName`): `main` returns -1 and no output is produced. -/
theorem C7_invalid_name (sgn : Bool) (a0 inName outName p n : List Nat) (hn : strlen n ≠ 2) :
    encode sgn a0 inName outName p n =
      { exit := -1, stdout := [Message.blockNameLength], allocated := none, data := [],
        output := none } :=
  encode_bad_name sgn a0 inName outName p n hn

/-- Witness of C7: a three-letter name with a good payload, and the empty name
with an empty payload. -/
theorem C7_invalid_name_witness :
    encode true [] [] [] [1, 2, 3] [0x41, 0x42, 0x43] =
      { exit := -1, stdout := [Message.blockNameLength], allocated := none, data := [],
        output := none } ∧
    encode true [] [] [] [] [] =
      { exit := -1, stdout := [Message.blockNameLength], allocated := none, data := [],
        output := none } :=
  ⟨C7_invalid_name true [] [] [] [1, 2, 3] [0x41, 0x42, 0x43] (by decide),
    C7_invalid_name true [] [] [] [] [] (by decide)⟩

/-- C8: for every two-byte name, the run on the empty payload fails with the
message on the empty input file (`EmptyPayload`): `main` returns -1, nothing is
allocated and no output is produced. -/
theorem C8_empty_payload (sgn : Bool) (a0 inName outName : List Nat) (n0 n1 : Nat)
    (hn : strlen [n0, n1] = 2) :
    (encode sgn a0 inName outName [] [n0, n1]).exit = -1 ∧
    (encode sgn a0 inName outName [] [n0, n1]).stdout.getLast? = some Message.inputEmpty ∧
    (encode sgn a0 inName outName [] [n0, n1]).allocated = none ∧
    (encode sgn a0 inName outName [] [n0, n1]).output = none := by
  rw [encode_empty sgn a0 inName outName [n0, n1] hn]
  simp

/-- Witness of C8: the name `AB`. -/
theorem C8_empty_payload_witness :
    (encode false [] [] [] [] [0x41, 0x42]).exit = -1 ∧
    (encode false [] [] [] [] [0x41, 0x42]).stdout.getLast? = some Message.inputEmpty ∧
    (encode false [] [] [] [] [0x41, 0x42]).allocated = none ∧
    (encode false [] [] [] [] [0x41, 0x42]).output = none :=
  C8_empty_payload false [] [] [] 0x41 0x42 (by decide)

/-- C9: for every two-byte name, every payload of 65535 bytes or more makes the
run fail with the message on the input size (`PayloadTooLarge`), and every
payload of exactly 65534 bytes makes it succeed with `FF FD` at offsets 4 and 5
of the output. -/
theorem C9_size_boundary (sgn : Bool) (a0 inName outName : List Nat) (n0 n1 : Nat)
    (hn : strlen [n0, n1] = 2) (hb0 : n0 < 256) (hb1 : n1 < 256) :
    (∀ p : List Nat, 65535 ≤ p.length →
      (encode sgn a0 inName outName p [n0, n1]).exit = -1 ∧
      (encode sgn a0 inName outName p [n0, n1]).stdout.getLast? = some Message.inputTooBig ∧
      (encode sgn a0 inName outName p [n0, n1]).output = none) ∧
    (∀ p : List Nat, p.length = 65534 →
      (encode sgn a0 inName outName p [n0, n1]).exit = 0 ∧
      (encode sgn a0 inName outName p [n0, n1]).byteAt 4 = some 0xFF ∧
      (encode sgn a0 inName outName p [n0, n1]).byteAt 5 = some 0xFD) := by
  constructor
  · intro p hp
    rw [encode_too_big sgn a0 inName outName p [n0, n1] hn hp]
    simp
  · intro p hp
    rw [encode_valid sgn a0 inName outName p n0 n1 (by omega) (by omega) hn hb0 hb1]
    simp [Run.byteAt, hp]

/-- Witness of C9: payloads of 65535 and of 65534 zero bytes under the name `T9`. -/
theorem C9_size_boundary_witness :
    ((encode true [] [] [] (List.replicate 65535 0) [0x54, 0x39]).exit = -1 ∧
      (encode true [] [] [] (List.replicate 65535 0) [0x54, 0x39]).stdout.getLast?
        = some Message.inputTooBig ∧
      (encode true [] [] [] (List.replicate 65535 0) [0x54, 0x39]).output = none) ∧
    ((encode true [] [] [] (List.replicate 65534 0) [0x54, 0x39]).exit = 0 ∧
      (encode true [] [] [] (List.replicate 65534 0) [0x54, 0x39]).byteAt 4 = some 0xFF ∧
      (encode true [] [] [] (List.replicate 65534 0) [0x54, 0x39]).byteAt 5 = some 0xFD) :=
  ⟨(C9_size_boundary true [] [] [] 0x54 0x39 (by decide) (by decide) (by decide)).1
      (List.replicate 65535 0) (le_of_eq (List.length_replicate 65535 0).symm),
    (C9_size_boundary true [] [] [] 0x54 0x39 (by decide) (by decide) (by decide)).2
      (List.replicate 65534 0) (List.length_replicate 65534 0)⟩

/-- C10, as stated, fails for a name byte of value 0: the name bytes `00 41`
are no two-byte name for `strlen`, so the run stops at the name check with
the message on the block name length, prints no range warning and writes no
output, on either kind of `char`. -/
theorem C10_nul_name_byte_counterexample :
    ¬ ((Message.blockNameRange ∈ (encode false [] [] [] [0x01] [0x00, 0x41]).stdout ↔
          ¬ (0x21 ≤ 0x00 ∧ 0x00 ≤ 0x5F ∧ 0x21 ≤ 0x41 ∧ 0x41 ≤ 0x5F)) ∧
        (encode false [] [] [] [0x01] [0x00, 0x41]).exit = 0) ∧
    encode false [] [] [] [0x01] [0x00, 0x41] =
      { exit := -1, stdout := [Message.blockNameLength], allocated := none, data := [],
        output := none } ∧
    encode true [] [] [] [0x01] [0x00, 0x41] =
      { exit := -1, stdout := [Message.blockNameLength], allocated := none, data := [],
        output := none } := by
  decide

/-- C10, amended: for every two-byte name `[n0, n1]` with byte values anywhere
in 1..255 and every valid payload, on either kind of `char`, the range warning
is printed exactly when `n0` or `n1` lies outside `0x21..0x5F` (values from
`0x80` up included) and nothing else is printed; in both cases the run succeeds
and writes the `len(p) + 13` bytes of the block. -/
theorem C10_range_warning (sgn : Bool) (a0 inName outName p : List Nat) (n0 n1 : Nat)
    (hp1 : 1 ≤ p.length) (hp2 : p.length ≤ 65534)
    (h0 : 1 ≤ n0) (hb0 : n0 ≤ 255) (h1 : 1 ≤ n1) (hb1 : n1 ≤ 255) :
    (Message.blockNameRange ∈ (encode sgn a0 inName outName p [n0, n1]).stdout ↔
      ¬ (0x21 ≤ n0 ∧ n0 ≤ 0x5F ∧ 0x21 ≤ n1 ∧ n1 ≤ 0x5F)) ∧
    (encode sgn a0 inName outName p [n0, n1]).stdout =
      (if 0x21 ≤ n0 ∧ n0 ≤ 0x5F ∧ 0x21 ≤ n1 ∧ n1 ≤ 0x5F then [] else [Message.blockNameRange]) ∧
    (encode sgn a0 inName outName p [n0, n1]).exit = 0 ∧
    (encode sgn a0 inName outName p [n0, n1]).output.map List.length = some (p.length + 13) := by
  have hn : strlen [n0, n1] = 2 := strlen_pair n0 n1 (by omega) (by omega)
  rw [encode_valid sgn a0 inName outName p n0 n1 hp1 hp2 hn (by omega) (by omega)]
  have hw := nameOutOfRange_iff sgn n0 n1 (by omega) (by omega)
  by_cases hr : 0x21 ≤ n0 ∧ n0 ≤ 0x5F ∧ 0x21 ≤ n1 ∧ n1 ≤ 0x5F
  · have hf : nameOutOfRange sgn [n0, n1] = false := by
      cases hv : nameOutOfRange sgn [n0, n1]
      · rfl
      · exact absurd hr (hw.mp hv)
    simp [hf, hr]
  · have ht : nameOutOfRange sgn [n0, n1] = true := hw.mpr hr
    simp [ht, hr]

/-- Witness of C10 (amended): the name bytes `80 41` under a signed `char`, where
the first byte is the negative value -128: the warning is printed and the run
succeeds. -/
theorem C10_range_warning_witness :
    (Message.blockNameRange ∈ (encode true [] [] [] [0x0A, 0x0B] [0x80, 0x41]).stdout ↔
      ¬ (0x21 ≤ 0x80 ∧ 0x80 ≤ 0x5F ∧ 0x21 ≤ 0x41 ∧ 0x41 ≤ 0x5F)) ∧
    (encode true [] [] [] [0x0A, 0x0B] [0x80, 0x41]).stdout =
      (if 0x21 ≤ 0x80 ∧ 0x80 ≤ 0x5F ∧ 0x21 ≤ 0x41 ∧ 0x41 ≤ 0x5F then []
        else [Message.blockNameRange]) ∧
    (encode true [] [] [] [0x0A, 0x0B] [0x80, 0x41]).exit = 0 ∧
    (encode true [] [] [] [0x0A, 0x0B] [0x80, 0x41]).output.map List.length = some (2 + 13) :=
  C10_range_warning true [] [] [] [0x0A, 0x0B] 0x80 0x41
    (by decide) (by decide) (by decide) (by decide) (by decide) (by decide)

/-- C11: the payload `01 02 03` under the name `AB` is encoded with success
as exactly the 16 bytes `16 16 16 1B 00 02 41 42 01 02 03 17 06 06 06 06`. -/
theorem C11_scenario_AB (sgn : Bool) (a0 inName outName : List Nat) :
    (encode sgn a0 inName outName [0x01, 0x02, 0x03] [0x41, 0x42]).exit = 0 ∧
    (encode sgn a0 inName outName [0x01, 0x02, 0x03] [0x41, 0x42]).output =
      some ([0x16, 0x16, 0x16, 0x1B, 0x00, 0x02, 0x41, 0x42, 0x01, 0x02, 0x03, 0x17,
        0x06, 0x06, 0x06, 0x06].map some) := by
  rw [encode_valid sgn a0 inName outName [0x01, 0x02, 0x03] 0x41 0x42 (by decide) (by decide)
    (by decide) (by decide) (by decide)]
  exact ⟨rfl, rfl⟩

/-- C12: the payload of 256 bytes `01` under the name `ZZ` is encoded with
success, its checksum wraps to `00` and the last four bytes of the output, at
offsets 265 to 268, are `00`; and for every valid payload whose byte sum is a
multiple of 256, under every two-byte name, the four trailer bytes are `00`. -/
theorem C12_checksum_wraps :
    (∀ (sgn : Bool) (a0 inName outName : List Nat),
      (encode sgn a0 inName outName (List.replicate 256 0x01) [0x5A, 0x5A]).exit = 0 ∧
      (encode sgn a0 inName outName (List.replicate 256 0x01) [0x5A, 0x5A]).output.map
        List.length = some 269 ∧
      (encode sgn a0 inName outName (List.replicate 256 0x01) [0x5A, 0x5A]).byteAt 265 = some 0 ∧
      (encode sgn a0 inName outName (List.replicate 256 0x01) [0x5A, 0x5A]).byteAt 266 = some 0 ∧
      (encode sgn a0 inName outName (List.replicate 256 0x01) [0x5A, 0x5A]).byteAt 267 = some 0 ∧
      (encode sgn a0 inName outName (List.replicate 256 0x01) [0x5A, 0x5A]).byteAt 268 = some 0) ∧
    sum8 (List.replicate 256 0x01) = 0 ∧
    (∀ (sgn : Bool) (a0 inName outName p : List Nat) (n0 n1 : Nat),
      1 ≤ p.length → p.length ≤ 65534 → strlen [n0, n1] = 2 → n0 < 256 → n1 < 256 →
      p.sum % 256 = 0 →
      (encode sgn a0 inName outName p [n0, n1]).byteAt (9 + p.length) = some 0 ∧
      (encode sgn a0 inName outName p [n0, n1]).byteAt (10 + p.length) = some 0 ∧
      (encode sgn a0 inName outName p [n0, n1]).byteAt (11 + p.length) = some 0 ∧
      (encode sgn a0 inName outName p [n0, n1]).byteAt (12 + p.length) = some 0) := by
  have hgen : ∀ (sgn : Bool) (a0 inName outName p : List Nat) (n0 n1 : Nat),
      1 ≤ p.length → p.length ≤ 65534 → strlen [n0, n1] = 2 → n0 < 256 → n1 < 256 →
      p.sum % 256 = 0 →
      (encode sgn a0 inName outName p [n0, n1]).byteAt (9 + p.length) = some 0 ∧
      (encode sgn a0 inName outName p [n0, n1]).byteAt (10 + p.length) = some 0 ∧
      (encode sgn a0 inName outName p [n0, n1]).byteAt (11 + p.length) = some 0 ∧
      (encode sgn a0 inName outName p [n0, n1]).byteAt (12 + p.length) = some 0 := by
    intro sgn a0 inName outName p n0 n1 hp1 hp2 hn hb0 hb1 hsum
    rw [encode_valid sgn a0 inName outName p n0 n1 hp1 hp2 hn hb0 hb1]
    have hc : sum8 p = 0 := hsum
    simp only [Run.byteAt, hc]
    refine ⟨?_, ?_, ?_, ?_⟩
    · rw [frame_getD_trailer _ p _ _ 1 (by simp; omega)]
      rfl
    · rw [frame_getD_trailer _ p _ _ 2 (by simp; omega)]
      rfl
    · rw [frame_getD_trailer _ p _ _ 3 (by simp; omega)]
      rfl
    · rw [frame_getD_trailer _ p _ _ 4 (by simp; omega)]
      rfl
  have hlen : (List.replicate 256 0x01).length = 256 := List.length_replicate 256 0x01
  have hsum : (List.replicate 256 0x01).sum = 256 := sum_replicate_one 256
  refine ⟨?_, ?_, hgen⟩
  · intro sgn a0 inName outName
    have h := hgen sgn a0 inName outName (List.replicate 256 0x01) 0x5A 0x5A
      (by rw [hlen]; decide) (by rw [hlen]; decide) (by decide) (by decide) (by decide)
      (by rw [hsum])
    rw [hlen] at h
    refine ⟨?_, ?_, h⟩
    · rw [encode_valid sgn a0 inName outName (List.replicate 256 0x01) 0x5A 0x5A
        (by rw [hlen]; decide) (by rw [hlen]; decide) (by decide) (by decide) (by decide)]
    · rw [encode_valid sgn a0 inName outName (List.replicate 256 0x01) 0x5A 0x5A
        (by rw [hlen]; decide) (by rw [hlen]; decide) (by decide) (by decide) (by decide)]
      simp only [Option.map_some', List.length_map, List.length_append, List.length_cons,
        List.length_nil, hlen]
  · rw [sum8, hsum]

/-- Witness of C12: the general part at the payload `80 80` under the name `W2`. -/
theorem C12_checksum_wraps_witness :
    (encode false [] [] [] [0x80, 0x80] [0x57, 0x32]).byteAt 11 = some 0 ∧
    (encode false [] [] [] [0x80, 0x80] [0x57, 0x32]).byteAt 12 = some 0 ∧
    (encode false [] [] [] [0x80, 0x80] [0x57, 0x32]).byteAt 13 = some 0 ∧
    (encode false [] [] [] [0x80, 0x80] [0x57, 0x32]).byteAt 14 = some 0 :=
  C12_checksum_wraps.2.2 false [] [] [] [0x80, 0x80] 0x57 0x32
    (by decide) (by decide) (by decide) (by decide) (by decide) (by decide)

/-- C13: for every valid payload `p` and any two two-byte names, the four
trailer bytes of the two outputs are equal, each the sum of the bytes of `p`
modulo 256: the name and the rest of the header have no part in the checksum. -/
theorem C13_checksum_ignores_name (sgn : Bool) (a0 inName outName p : List Nat)
    (n0 n1 m0 m1 : Nat) (hp1 : 1 ≤ p.length) (hp2 : p.length ≤ 65534)
    (hn : strlen [n0, n1] = 2) (hn0 : n0 < 256) (hn1 : n1 < 256)
    (hm : strlen [m0, m1] = 2) (hm0 : m0 < 256) (hm1 : m1 < 256) :
    ∀ k, k < 4 →
      (encode sgn a0 inName outName p [n0, n1]).byteAt (9 + p.length + k) =
        (encode sgn a0 inName outName p [m0, m1]).byteAt (9 + p.length + k) ∧
      (encode sgn a0 inName outName p [n0, n1]).byteAt (9 + p.length + k)
        = some (p.sum % 256) := by
  intro k hk
  rw [encode_valid sgn a0 inName outName p n0 n1 hp1 hp2 hn hn0 hn1,
    encode_valid sgn a0 inName outName p m0 m1 hp1 hp2 hm hm0 hm1]
  simp only [Run.byteAt]
  rw [frame_getD_trailer _ p _ _ (k + 1) (by simp; omega),
    frame_getD_trailer _ p _ _ (k + 1) (by simp; omega)]
  refine ⟨rfl, ?_⟩
  have hk4 : k = 0 ∨ k = 1 ∨ k = 2 ∨ k = 3 := by omega
  rcases hk4 with h | h | h | h <;> subst h <;> rfl

/-- Witness of C13: the payload `FF 02` under the names `AB` and `zz`, at the
last trailer byte. -/
theorem C13_checksum_ignores_name_witness :
    (encode true [] [] [] [0xFF, 0x02] [0x41, 0x42]).byteAt (9 + 2 + 3) =
      (encode true [] [] [] [0xFF, 0x02] [0x7A, 0x7A]).byteAt (9 + 2 + 3) ∧
    (encode true [] [] [] [0xFF, 0x02] [0x41, 0x42]).byteAt (9 + 2 + 3) = some 1 :=
  C13_checksum_ignores_name true [] [] [] [0xFF, 0x02] 0x41 0x42 0x7A 0x7A
    (by decide) (by decide) (by decide) (by decide) (by decide) (by decide) (by decide)
    (by decide) 3 (by decide)

/-- C14: for every payload and name, a run that fails for the name
(`strlen` not 2), for an empty payload or for a payload of 65535 bytes or more
returns -1 without allocating, opening or writing anything; a run that does not
return 0 leaves no output; and a run either leaves no output at all or returns
0 with the whole block of `len(p) + 13` assigned bytes. -/
theorem C14_failure_leaves_no_output (sgn : Bool) (a0 inName outName p n : List Nat) :
    ((strlen n ≠ 2 ∨ p = [] ∨ 65535 ≤ p.length) →
      (encode sgn a0 inName outName p n).exit = -1 ∧
      (encode sgn a0 inName outName p n).output = none ∧
      (encode sgn a0 inName outName p n).allocated = none ∧
      (encode sgn a0 inName outName p n).data = []) ∧
    ((encode sgn a0 inName outName p n).exit ≠ 0 →
      (encode sgn a0 inName outName p n).output = none) ∧
    ((encode sgn a0 inName outName p n).output = none ∨
      ((encode sgn a0 inName outName p n).exit = 0 ∧
        ∃ out : List Nat, (encode sgn a0 inName outName p n).output = some (out.map some) ∧
          out.length = p.length + 13)) := by
  by_cases hs : strlen n = 2
  · by_cases hp0 : p = []
    · subst hp0
      rw [encode_empty sgn a0 inName outName n hs]
      simp
    · by_cases hbig : 65535 ≤ p.length
      · rw [encode_too_big sgn a0 inName outName p n hs hbig]
        simp
      · rw [main_ideal_name sgn a0 inName outName p n hp0 (by omega) hs]
        refine ⟨?_, ?_, ?_⟩
        · intro h
          rcases h with h | h | h
          · exact absurd hs h
          · exact absurd h hp0
          · exact absurd h hbig
        · intro h
          exact absurd rfl h
        · right
          refine ⟨rfl, _, rfl, ?_⟩
          simp
  · rw [encode_bad_name sgn a0 inName outName p n hs]
    simp

/-- Witness of C14: a one-letter name, an empty payload and a payload of 70000
bytes each leave no output; two good bytes under the name `OK` give 15 bytes. -/
theorem C14_failure_leaves_no_output_witness :
    (encode true [] [] [] [1, 2] [0x41]).output = none ∧
    (encode true [] [] [] [] [0x41, 0x42]).output = none ∧
    (encode true [] [] [] (List.replicate 70000 0) [0x41, 0x42]).output = none ∧
    (encode true [] [] [] [1, 2] [0x4F, 0x4B]).output.map List.length = some 15 :=
  ⟨((C14_failure_leaves_no_output true [] [] [] [1, 2] [0x41]).1
      (Or.inl (by decide))).2.1,
    ((C14_failure_leaves_no_output true [] [] [] [] [0x41, 0x42]).1
      (Or.inr (Or.inl rfl))).2.1,
    ((C14_failure_leaves_no_output true [] [] [] (List.replicate 70000 0) [0x41, 0x42]).1
      (Or.inr (Or.inr (by rw [List.length_replicate]; decide)))).2.1,
    by decide⟩

/-- C15: the run is determined by the payload and the name: for every payload
`p` and every name `n` (of bytes), two runs on `(p, n)` give the same value
returned, the same messages and the same output file, whatever the program
name, the file names and the signedness of `char`; and every byte of the output
is a byte the program assigned, none is left to chance. -/
theorem C15_deterministic (sgn sgn2 : Bool) (a0 inName outName b0 inName2 outName2 : List Nat)
    (p n : List Nat) (hn : ∀ b ∈ n, b < 256) :
    encode sgn a0 inName outName p n = encode sgn2 b0 inName2 outName2 p n ∧
    ∀ out, (encode sgn a0 inName outName p n).output = some out → ∀ c ∈ out, c ≠ none := by
  by_cases hs : strlen n = 2
  · by_cases hp0 : p = []
    · subst hp0
      rw [encode_empty sgn a0 inName outName n hs, encode_empty sgn2 b0 inName2 outName2 n hs,
        nameOutOfRange_any_sgn sgn sgn2 n hn]
      simp
    · by_cases hbig : 65535 ≤ p.length
      · rw [encode_too_big sgn a0 inName outName p n hs hbig,
          encode_too_big sgn2 b0 inName2 outName2 p n hs hbig,
          nameOutOfRange_any_sgn sgn sgn2 n hn]
        simp
      · rw [main_ideal_name sgn a0 inName outName p n hp0 (by omega) hs,
          main_ideal_name sgn2 b0 inName2 outName2 p n hp0 (by omega) hs,
          nameOutOfRange_any_sgn sgn sgn2 n hn, toUChar_charAt_any_sgn sgn sgn2 n 0 hn,
          toUChar_charAt_any_sgn sgn sgn2 n 1 hn]
        refine ⟨rfl, ?_⟩
        intro out hout
        have ho := Option.some.inj hout
        rw [← ho]
        exact frame_no_gap _
  · rw [encode_bad_name sgn a0 inName outName p n hs,
      encode_bad_name sgn2 b0 inName2 outName2 p n hs]
    simp

/-- Witness of C15: the payload `10 20` under the name bytes `C1 41`, run under
a signed and an unsigned `char` and under different program and file names. -/
theorem C15_deterministic_witness :
    encode true [0x62] [0x69] [0x6F] [0x10, 0x20] [0xC1, 0x41]
      = encode false [] [0x78] [0x79] [0x10, 0x20] [0xC1, 0x41] ∧
    ∀ out, (encode true [0x62] [0x69] [0x6F] [0x10, 0x20] [0xC1, 0x41]).output = some out →
      ∀ c ∈ out, c ≠ none :=
  C15_deterministic true false [0x62] [0x69] [0x6F] [] [0x78] [0x79] [0x10, 0x20] [0xC1, 0x41]
    (by decide)

/-- C16 on the code: the size passed to `malloc` is `data_size + 13`, that is
`len(p) + 26`, and not `len(p) + 13`: 29 and not 16 for the payload `01 02 03`
under the name `AB`, while the block written is 16 bytes long; and so for every
valid payload and two-byte name. -/
theorem C16_allocation_is_len_plus_26 :
    (encode true [] [] [] [0x01, 0x02, 0x03] [0x41, 0x42]).allocated = some 29 ∧
    (encode true [] [] [] [0x01, 0x02, 0x03] [0x41, 0x42]).allocated ≠ some (3 + 13) ∧
    (encode true [] [] [] [0x01, 0x02, 0x03] [0x41, 0x42]).data.length = 29 ∧
    (encode true [] [] [] [0x01, 0x02, 0x03] [0x41, 0x42]).output.map List.length = some 16 ∧
    (∀ (sgn : Bool) (a0 inName outName p : List Nat) (n0 n1 : Nat),
      1 ≤ p.length → p.length ≤ 65534 → strlen [n0, n1] = 2 → n0 < 256 → n1 < 256 →
      (encode sgn a0 inName outName p [n0, n1]).allocated = some (p.length + 26) ∧
      (encode sgn a0 inName outName p [n0, n1]).allocated ≠ some (p.length + 13) ∧
      (encode sgn a0 inName outName p [n0, n1]).data.length = p.length + 26) := by
  refine ⟨by decide, by decide, by decide, by decide, ?_⟩
  intro sgn a0 inName outName p n0 n1 hp1 hp2 hn hb0 hb1
  rw [encode_valid sgn a0 inName outName p n0 n1 hp1 hp2 hn hb0 hb1]
  refine ⟨rfl, ?_, ?_⟩
  · simp
  · simp

/-- C17: on valid inputs the encoding can be undone. For every valid payload
`p` and two-byte name `[n0, n1]`, bytes 6 and 7 of the output are the name and
the `256 * out[4] + out[5] + 1` bytes from offset 8 on are the payload; and if
the output for a valid payload `q` and a two-byte name `[m0, m1]` is the same
list of bytes, then `p = q` and `[n0, n1] = [m0, m1]`. -/
theorem C17_injective (sgn : Bool) (a0 inName outName p : List Nat) (n0 n1 : Nat)
    (hp1 : 1 ≤ p.length) (hp2 : p.length ≤ 65534)
    (hn : strlen [n0, n1] = 2) (hb0 : n0 < 256) (hb1 : n1 < 256) :
    (∃ out : List Nat,
      (encode sgn a0 inName outName p [n0, n1]).output = some (out.map some) ∧
      [out.getD 6 0, out.getD 7 0] = [n0, n1] ∧
      (out.drop 8).take (256 * out.getD 4 0 + out.getD 5 0 + 1) = p) ∧
    (∀ (sgn2 : Bool) (b0 inName2 outName2 q : List Nat) (m0 m1 : Nat),
      1 ≤ q.length → q.length ≤ 65534 → strlen [m0, m1] = 2 → m0 < 256 → m1 < 256 →
      (encode sgn a0 inName outName p [n0, n1]).output
        = (encode sgn2 b0 inName2 outName2 q [m0, m1]).output →
      p = q ∧ [n0, n1] = [m0, m1]) := by
  rw [encode_valid sgn a0 inName outName p n0 n1 hp1 hp2 hn hb0 hb1]
  constructor
  · refine ⟨_, rfl, ?_, ?_⟩
    · simp
    · have hl : 256 * ((p.length - 1) / 256 % 256) + (p.length - 1) % 256 + 1 = p.length := by
        omega
      simp only [List.cons_append, List.getD_cons_succ, List.getD_cons_zero, List.drop_succ_cons,
        List.drop_zero, List.nil_append, hl]
      exact List.take_left' rfl
  · intro sgn2 b0 inName2 outName2 q m0 m1 hq1 hq2 hm hc0 hc1 heq
    rw [encode_valid sgn2 b0 inName2 outName2 q m0 m1 hq1 hq2 hm hc0 hc1] at heq
    have hframe := (List.map_injective_iff.mpr (Option.some_injective Nat))
      (Option.some.inj heq)
    simp only [List.cons_append, List.nil_append, List.cons.injEq, true_and] at hframe
    obtain ⟨hhi, hlo, hn0, hn1, hrest⟩ := hframe
    have hlen : p.length = q.length := by omega
    have hpq := (List.append_inj hrest hlen).1
    exact ⟨hpq, by rw [hn0, hn1]⟩

/-- Witness of C17: the payload `AA BB CC` under the name `R3` is read back
from its block, and shares its block with no other valid input. -/
theorem C17_injective_witness :
    (∃ out : List Nat,
      (encode true [] [] [] [0xAA, 0xBB, 0xCC] [0x52, 0x33]).output = some (out.map some) ∧
      [out.getD 6 0, out.getD 7 0] = [0x52, 0x33] ∧
      (out.drop 8).take (256 * out.getD 4 0 + out.getD 5 0 + 1) = [0xAA, 0xBB, 0xCC]) ∧
    (∀ (sgn2 : Bool) (b0 inName2 outName2 q : List Nat) (m0 m1 : Nat),
      1 ≤ q.length → q.length ≤ 65534 → strlen [m0, m1] = 2 → m0 < 256 → m1 < 256 →
      (encode true [] [] [] [0xAA, 0xBB, 0xCC] [0x52, 0x33]).output
        = (encode sgn2 b0 inName2 outName2 q [m0, m1]).output →
      [0xAA, 0xBB, 0xCC] = q ∧ [0x52, 0x33] = [m0, m1]) :=
  C17_injective true [] [] [] [0xAA, 0xBB, 0xCC] 0x52 0x33
    (by decide) (by decide) (by decide) (by decide) (by decide)

/-- C18: for every valid payload `p` and two-byte name, the offsets of the
work buffer that the run stores to are exactly `0, 1, ..., len(p) + 12`; each of
them is below the size of the allocation; in the buffer the cells below
`len(p) + 13` are assigned and the cells from there on are not; and the output
is the first `len(p) + 13` cells, every one of them an assigned byte. -/
theorem C18_written_offsets (sgn : Bool) (a0 inName outName p : List Nat) (n0 n1 : Nat)
    (hp1 : 1 ≤ p.length) (hp2 : p.length ≤ 65534)
    (hn : strlen [n0, n1] = 2) (hb0 : n0 < 256) (hb1 : n1 < 256) :
    (mainLogged (World.ideal sgn p) [a0, [n0, n1], inName, outName]).1
      = encode sgn a0 inName outName p [n0, n1] ∧
    (∀ k, k ∈ (mainLogged (World.ideal sgn p) [a0, [n0, n1], inName, outName]).2
      ↔ k < p.length + 13) ∧
    (∃ size, (encode sgn a0 inName outName p [n0, n1]).allocated = some size ∧
      (encode sgn a0 inName outName p [n0, n1]).data.length = size ∧
      ∀ k ∈ (mainLogged (World.ideal sgn p) [a0, [n0, n1], inName, outName]).2, k < size) ∧
    (∀ k, k < p.length + 13 →
      ∃ b, (encode sgn a0 inName outName p [n0, n1]).data.getD k none = some b) ∧
    (∀ k, p.length + 13 ≤ k →
      (encode sgn a0 inName outName p [n0, n1]).data.getD k none = none) ∧
    (encode sgn a0 inName outName p [n0, n1]).output
      = some ((encode sgn a0 inName outName p [n0, n1]).data.take (p.length + 13)) ∧
    (∀ out, (encode sgn a0 inName outName p [n0, n1]).output = some out →
      out.length = p.length + 13 ∧ ∀ c ∈ out, c ≠ none) := by
  have hp0 : p ≠ [] := by
    intro h
    subst h
    simp at hp1
  have hlog := mainLogged_ideal_log sgn a0 inName outName p [n0, n1] hp0 (by omega) hn
  have hmem : ∀ k, k ∈ (mainLogged (World.ideal sgn p) [a0, [n0, n1], inName, outName]).2
      ↔ k < p.length + 13 := by
    intro k
    rw [hlog]
    exact mem_log_iff p.length k
  refine ⟨mainLogged_fst _ _, hmem, ?_, ?_, ?_, ?_, ?_⟩
  · refine ⟨p.length + 13 + 13, ?_, ?_, ?_⟩
    · rw [encode_valid sgn a0 inName outName p n0 n1 hp1 hp2 hn hb0 hb1]
    · rw [encode_valid sgn a0 inName outName p n0 n1 hp1 hp2 hn hb0 hb1]
      simp
    · intro k hk
      have := (hmem k).mp hk
      omega
  · intro k hk
    rw [encode_valid sgn a0 inName outName p n0 n1 hp1 hp2 hn hb0 hb1]
    exact cells_assigned _ _ k (by simp; omega)
  · intro k hk
    rw [encode_valid sgn a0 inName outName p n0 n1 hp1 hp2 hn hb0 hb1]
    exact cells_unassigned _ 13 k (by simp; omega)
  · rw [encode_valid sgn a0 inName outName p n0 n1 hp1 hp2 hn hb0 hb1]
    simp only [Option.some.injEq]
    exact (List.take_left' (by simp)).symm
  · intro out hout
    rw [encode_valid sgn a0 inName outName p n0 n1 hp1 hp2 hn hb0 hb1] at hout
    have ho := Option.some.inj hout
    rw [← ho]
    refine ⟨?_, frame_no_gap _⟩
    simp

/-- Witness of C18: the payload `0D 0A` under the name `LF`. -/
theorem C18_written_offsets_witness :
    (∀ k, k ∈ (mainLogged (World.ideal true [0x0D, 0x0A]) [[], [0x4C, 0x46], [], []]).2
      ↔ k < 2 + 13) ∧
    (∀ k, k < 2 + 13 →
      ∃ b, (encode true [] [] [] [0x0D, 0x0A] [0x4C, 0x46]).data.getD k none = some b) :=
  ⟨(C18_written_offsets true [] [] [] [0x0D, 0x0A] 0x4C 0x46
      (by decide) (by decide) (by decide) (by decide) (by decide)).2.1,
    (C18_written_offsets true [] [] [] [0x0D, 0x0A] 0x4C 0x46
      (by decide) (by decide) (by decide) (by decide) (by decide)).2.2.2.1⟩

end Bin2Sphere
